import Mathlib

/-!
Verification development for the raster grid engine of `plans/datasets.py`.

Shallow embedding conventions:
- A cell is `Option ℚ`: `none` is the absent cell (IEEE NaN for floating
  grids, the boolean mask flag for integer masked arrays); `some v` is a
  plain numeric cell.  Both NumPy branches of `mask_nodata` /
  `insert_nodata` (the float NaN branch and the integer masked-array
  branch) act identically on this representation, so one definition
  covers both.
- Numeric values are exact rationals; writing a number to a text token
  and parsing it back is the identity (Python repr round-trips floats).
- A grid is a list of rows; NumPy whole-array expressions become
  `List.map` / `List.zipWith` over rows and cells.
- Python objects are modelled by explicit state passing: a method that
  mutates `self` becomes a function returning the new state.  NumPy
  calls used by the code (`np.where`, `astype`, `np.ma.filled` with a
  fill value, comparisons) all allocate fresh arrays, so value semantics
  agrees with the source except where the source itself aliases arrays
  (`cut_edges`, `get_zonal_stats`), and there the aliasing is modelled
  explicitly.
-/

abbrev Cell := Option ℚ

abbrev Grid := List (List Cell)

/-- Numeric value of a Boolean factor such as `(grid == id)` in NumPy
algebra: `True` is 1, `False` is 0. -/
def b2q (b : Bool) : ℚ := if b then 1 else 0

/-- Truncation toward zero, as in a C-style float-to-int cast. -/
def ratTrunc (q : ℚ) : ℤ := if 0 ≤ q then ⌊q⌋ else ⌈q⌉

/-- The two cell dtypes exercised by the engine: `float32` for base
rasters and `uint8` for categorical rasters (`QualiRaster`). -/
inductive Dtype
  | float32
  | uint8
deriving DecidableEq

/-- Value-level model of `numpy.ndarray.astype`.  Floating values are
kept exact (the model does not quantize to 32 bits); `uint8` truncates
toward zero and wraps modulo 256. -/
def Dtype.cast : Dtype → ℚ → ℚ
  | .float32, v => v
  | .uint8, v => ((ratTrunc v).emod 256 : ℚ)

/-- The six-entry `asc_metadata` dictionary.  A field is `none` when the
dictionary still holds Python `None` (the state right after
`Raster.__init__`).  `ncols`/`nrows` are integers, the rest are floats,
mirroring the parse formats in `load_asc_raster`. -/
structure AscMetadata where
  ncols : Option ℤ := none
  nrows : Option ℤ := none
  xllcorner : Option ℚ := none
  yllcorner : Option ℚ := none
  cellsize : Option ℚ := none
  nodata_value : Option ℚ := none
deriving DecidableEq

/-- State of a `Raster` object: main grid, AOI backup slot, AOI flag,
header metadata with its two cached attributes (`nodatavalue`,
`cellsize`), the `.prj` string and the cell dtype.  Display-only
attributes (name, cmap, view specs, paths) carry no semantics and are
omitted. -/
structure Raster where
  grid : Option Grid := none
  backup_grid : Option Grid := none
  isaoi : Bool := false
  asc_metadata : AscMetadata := {}
  nodatavalue : Option ℚ := none
  cellsize : Option ℚ := none
  prj : Option String := none
  dtype : Dtype := .float32
deriving DecidableEq

instance : Inhabited Raster := ⟨{}⟩

/-- The state produced by `Raster.__init__(name, dtype)`. -/
def mkRaster (dtype : Dtype) : Raster := { dtype := dtype }

/-- Cellwise body of `mask_nodata`: a cell equal to the nodata value
becomes absent; an already absent cell stays absent (NaN compares false
to every value; `masked_where` keeps the existing mask). -/
def cellMask (ndv : ℚ) : Cell → Cell
  | none => none
  | some v => if v = ndv then none else some v

/-- Cellwise body of `insert_nodata` (`np.nan_to_num` / `np.ma.filled`):
an absent cell becomes the fill value, plain cells are unchanged. -/
def cellFill (ndv : ℚ) : Cell → Cell
  | none => some ndv
  | some v => some v

/-- Apply a cell operation to every cell of a grid. -/
def gmap (f : Cell → Cell) (g : Grid) : Grid := g.map (List.map f)

/-- Model of `Raster.mask_nodata`: no-op when the nodata value is unset
(or when there is no grid, where the source would fail on `None`). -/
def Raster.mask_nodata (r : Raster) : Raster :=
  match r.nodatavalue, r.grid with
  | some ndv, some g => { r with grid := some (gmap (cellMask ndv) g) }
  | _, _ => r

/-- Model of `Raster.insert_nodata`. -/
def Raster.insert_nodata (r : Raster) : Raster :=
  match r.nodatavalue, r.grid with
  | some ndv, some g => { r with grid := some (gmap (cellFill ndv) g) }
  | _, _ => r

/-- Model of `Raster.set_grid`: cast the incoming grid to the raster
dtype (`grid.astype(self.dtype)`), then mask nodata cells. -/
def Raster.set_grid (r : Raster) (grid : Grid) : Raster :=
  ({ r with grid := some (gmap (fun c => c.map r.dtype.cast) grid) }).mask_nodata

/-- Merge of one incoming metadata entry: the incoming value wins when
the key is present (`if k in metadata`), otherwise the old value is
kept. -/
def updField {α : Type} (incoming old : Option α) : Option α :=
  match incoming with
  | some v => some v
  | none => old

/-- Model of `Raster.set_asc_metadata`: merge the incoming dictionary
into the stored one, then refresh the cached `nodatavalue` and
`cellsize` attributes. -/
def Raster.set_asc_metadata (r : Raster) (metadata : AscMetadata) : Raster :=
  let md : AscMetadata :=
    { ncols := updField metadata.ncols r.asc_metadata.ncols
      nrows := updField metadata.nrows r.asc_metadata.nrows
      xllcorner := updField metadata.xllcorner r.asc_metadata.xllcorner
      yllcorner := updField metadata.yllcorner r.asc_metadata.yllcorner
      cellsize := updField metadata.cellsize r.asc_metadata.cellsize
      nodata_value := updField metadata.nodata_value r.asc_metadata.nodata_value }
  { r with asc_metadata := md, nodatavalue := md.nodata_value, cellsize := md.cellsize }

/-- Model of `Raster.apply_aoi_mask`: outside cells (where the
zero-filled AOI grid is 0) are replaced by the nodata value via
`np.where`, the previous grid is saved in the backup slot unless
`inplace`, and the new grid is installed with `set_grid`; finally the
AOI flag is raised.  No-op when nodata or the grid is unset. -/
def Raster.apply_aoi_mask (r : Raster) (grid_aoi : Grid) (inplace : Bool) : Raster :=
  match r.nodatavalue, r.grid with
  | some ndv, some g =>
    let aoi := gmap (cellFill 0) grid_aoi
    let grd_mask : Grid :=
      List.zipWith (fun arow grow =>
        List.zipWith (fun a c => if a = some (0 : ℚ) then some ndv else c) arow grow) aoi g
    let r1 := if inplace then r else { r with backup_grid := some g }
    { r1.set_grid grd_mask with isaoi := true }
  | _, _ => r

/-- Model of `Raster.release_aoi_mask`: when the AOI flag is set, the
backup grid is re-installed with `set_grid`, the backup slot is cleared
and the flag lowered; otherwise no-op.  (The flag-set, backup-`None`
state would raise in the source; it is unreachable through
`apply_aoi_mask(inplace=False)`.) -/
def Raster.release_aoi_mask (r : Raster) : Raster :=
  if r.isaoi then
    match r.backup_grid with
    | some b => { r.set_grid b with backup_grid := none, isaoi := false }
    | none => r
  else r

/-- Cellwise clamp of `cut_edges`: first values below `lower` are raised
to `lower`, then values above `upper` are cut to `upper`.  NaN cells
compare false on both tests and stay absent. -/
def clampCell (lower upper : ℚ) : Cell → Cell
  | none => none
  | some v =>
    let v1 := if v < lower then lower else v
    some (if upper < v1 then upper else v1)

/-- Model of `Raster.cut_edges`.  In the source, `new_grid = self.grid`
binds the same array object, and the two in-place assignments
`new_grid[new_grid < lower] = lower`, `new_grid[new_grid > upper] =
upper` write through to the stored grid; hence in the `inplace=False`
branch the raster state keeps the clamped array (returned alongside),
while the `inplace=True` branch additionally re-runs `set_grid`. -/
def Raster.cut_edges (r : Raster) (upper lower : ℚ) (inplace : Bool) :
    Option Grid × Raster :=
  match r.grid with
  | none => (none, r)
  | some g =>
    let new_grid := gmap (clampCell lower upper) g
    if inplace then (none, r.set_grid new_grid)
    else (some new_grid, { r with grid := some new_grid })

/-! ### Grid codec: `export_asc_raster` / `load_asc_raster`

The `.asc` file is modelled at the numeric-token level: six header
values followed by the data rows.  Python writes each number with its
repr and parses it back with `int`/`float`, which is the identity on the
value, so string formatting is not re-modelled. -/

/-- Numeric content of an `.asc` file: the six fixed-order header values
and the data rows (top row first). -/
structure AscFile where
  ncols : ℤ
  nrows : ℤ
  xllcorner : ℚ
  yllcorner : ℚ
  cellsize : ℚ
  nodata_value : ℚ
  rows : List (List ℚ)
deriving DecidableEq

/-- Model of `Raster.export_asc_raster`.  Returns the file content and
the raster state after the call, or `none` when the guard
(`grid is None or asc_metadata is None`) skips the export or a metadata
entry is still `None` (the source would then fail on `float(None)`).
Steps of the source: read `ndv` from the metadata, `insert_nodata`,
re-array the grid at the raster dtype, run the (dead after
`insert_nodata`) NaN-substitution loop that writes `int(ndv)`, emit the
rows, then `mask_nodata` again. -/
def Raster.export_asc_raster (r : Raster) : Option (AscFile × Raster) :=
  match r.grid, r.asc_metadata.ncols, r.asc_metadata.nrows, r.asc_metadata.xllcorner,
      r.asc_metadata.yllcorner, r.asc_metadata.cellsize, r.asc_metadata.nodata_value with
  | some _, some nc, some nr, some xl, some yl, some cs, some nd =>
    let ndv : ℚ := nd
    let r1 := r.insert_nodata
    let def_array := gmap (fun c => c.map r.dtype.cast) (r1.grid.getD [])
    let def_array2 := gmap (fun c =>
      match c with
      | none => some ((ratTrunc ndv : ℤ) : ℚ)
      | some v => some v) def_array
    let rows := def_array2.map (List.map (fun c => c.getD ndv))
    let r2 := r1.mask_nodata
    some ({ ncols := nc, nrows := nr, xllcorner := xl, yllcorner := yl,
            cellsize := cs, nodata_value := ndv, rows := rows }, r2)
  | _, _, _, _, _, _, _ => none

/-- Model of `Raster.load_asc_raster` on file content `f`: build the
metadata dictionary (`ncols`/`nrows` via `int`, the rest via `float`),
build the data grid as `np.array(tokens, dtype=self.dtype)`, then
`set_asc_metadata` and `set_grid`. -/
def Raster.load_asc_raster (r : Raster) (f : AscFile) : Raster :=
  let dct_meta : AscMetadata :=
    { ncols := some f.ncols, nrows := some f.nrows, xllcorner := some f.xllcorner,
      yllcorner := some f.yllcorner, cellsize := some f.cellsize,
      nodata_value := some f.nodata_value }
  let grd_data : Grid := f.rows.map (List.map (fun v => some (r.dtype.cast v)))
  (r.set_asc_metadata dct_meta).set_grid grd_data

/-! ### Categorical rasters (`QualiRaster`) -/

/-- Sort a list of category ids ascending (`sort_values(by="Id")`). -/
def sortIds (t : List ℤ) : List ℤ := t.insertionSort (fun a b => a ≤ b)

/-- State of a `QualiRaster`: the base raster plus the category table.
Of the table columns only `Id` is semantic for the verified operations,
so the table is modelled as its id column (kept sorted by `set_table`);
`Name`/`Alias`/`Color` are display data. -/
structure QualiRaster where
  base : Raster
  table : Option (List ℤ) := none
deriving DecidableEq

/-- Model of `QualiRaster._overwrite_nodata`: nodata is forced to 0 in
both the cached attribute and the metadata dictionary. -/
def QualiRaster.overwrite_nodata (q : QualiRaster) : QualiRaster :=
  { q with base := { q.base with
      nodatavalue := some 0,
      asc_metadata := { q.base.asc_metadata with nodata_value := some 0 } } }

/-- Model of `QualiRaster.__init__`: base init then `_overwrite_nodata`
(table not yet set). -/
def QualiRaster.init (dtype : Dtype) : QualiRaster :=
  QualiRaster.overwrite_nodata { base := mkRaster dtype, table := none }

/-- Model of `QualiRaster.set_asc_metadata`: the base merge followed by
`_overwrite_nodata`. -/
def QualiRaster.set_asc_metadata (q : QualiRaster) (metadata : AscMetadata) : QualiRaster :=
  QualiRaster.overwrite_nodata { q with base := q.base.set_asc_metadata metadata }

/-- Model of `QualiRaster.set_table`: store the (prepared) table sorted
by id. -/
def QualiRaster.set_table (q : QualiRaster) (dataframe : List ℤ) : QualiRaster :=
  { q with table := some (sortIds dataframe) }

/-- One loop iteration of `reclassify` on one cell, in the source's
algebraic mask-multiply form:
`grid_new = grid_new * (grid_new != old) + new * (grid_new == old)`.
A masked cell propagates masked through the arithmetic. -/
def stepCell (c : Cell) (p : ℚ × ℚ) : Cell :=
  c.map (fun v => v * b2q (decide (v ≠ p.1)) + p.2 * b2q (decide (v = p.1)))

/-- Model of `QualiRaster.reclassify`: fold the mask-multiply rewrite
over the `(Old_Id, New_Id)` pairs on a copy of the grid, install the
result with `set_grid`, and replace the table. -/
def QualiRaster.reclassify (q : QualiRaster) (dict_ids : List (ℚ × ℚ))
    (df_new_table : List ℤ) : QualiRaster :=
  match q.base.grid with
  | none => q
  | some g =>
    let grid_new := dict_ids.foldl (fun gr p => gmap (fun c => stepCell c p) gr) g
    ({ q with base := q.base.set_grid grid_new }).set_table df_new_table

/-- Number of grid cells equal to a category id:
`np.sum(1 * (self.grid == n_id))` (masked cells are excluded from the
sum). -/
def countId (g : Grid) (i : ℤ) : ℕ :=
  (g.map (fun row => (row.filter (fun c => c = some ((i : ℤ) : ℚ))).length)).sum

/-- Round half to even at two decimals (pandas `Series.round(2)`). -/
def round2 (q : ℚ) : ℚ :=
  let x := q * 100
  let f := ⌊x⌋
  let frac := x - (f : ℚ)
  let n : ℤ :=
    if frac < 1 / 2 then f
    else if 1 / 2 < frac then f + 1
    else if f % 2 = 0 then f else f + 1
  (n : ℚ) / 100

/-- One output row of `get_areas`: id, cell count and the five derived
area columns. -/
structure AreaRow where
  id : ℤ
  cell_count : ℕ
  area_m2 : ℚ
  area_ha : ℚ
  area_km2 : ℚ
  area_f : ℚ
  area_pct : ℚ
deriving DecidableEq

/-- Model of `QualiRaster.get_areas` (without `merge`): `None` when the
table, grid or prj is unset; otherwise one row per table id with the
cell count, areas in four units, the fraction and the percentage rounded
to two decimals.  The degree-based cell size is scaled by 111111 when
the prj string starts with GEOGCS. -/
def QualiRaster.get_areas (q : QualiRaster) : Option (List AreaRow) :=
  match q.table, q.base.grid, q.base.prj with
  | some t, some g, some prj =>
    let cell_size : ℚ :=
      if prj.take 6 = "GEOGCS" then (q.base.cellsize.getD 0) * 111111
      else q.base.cellsize.getD 0
    let unit_area := cell_size * cell_size
    let ids := sortIds t
    let counts := ids.map (fun i => countId g i)
    let total : ℚ := (counts.map (fun n => (n : ℚ))).sum
    some ((ids.zip counts).map (fun p =>
      { id := p.1
        cell_count := p.2
        area_m2 := (p.2 : ℚ) * unit_area
        area_ha := (p.2 : ℚ) * unit_area / (100 * 100)
        area_km2 := (p.2 : ℚ) * unit_area / (1000 * 1000)
        area_f := (p.2 : ℚ) / total
        area_pct := round2 (100 * (p.2 : ℚ) / total) }))
  | _, _, _ => none

/-- Model of `QualiRaster.get_zonal_stats` restricted to the state of
the sample raster (the statistics table itself is assembled by the
external `plans.analyst.Univar` and carries no state).  The iterated ids
are the table ids found in the grid (the `clear_table` detour).  The
source stores `grid_raster = raster_sample.grid` once (the array object;
`np.where`/`astype` allocate fresh arrays, so it is never written
through) and re-assigns it to `raster_sample.grid` at the end of every
iteration after the in-place `apply_aoi_mask`. -/
def QualiRaster.get_zonal_stats (q : QualiRaster) (raster_sample : Raster) : Raster :=
  let ids : List ℤ :=
    match q.table, q.base.grid with
    | some t, some g =>
      (sortIds t).filter (fun i => g.any (fun row => row.any (fun c => c = some ((i : ℤ) : ℚ))))
    | _, _ => []
  let grid_raster := raster_sample.grid
  ids.foldl (fun s i =>
    let grid_aoi := gmap (Option.map (fun v => b2q (decide (v = ((i : ℤ) : ℚ))))) (q.base.grid.getD [])
    let s1 := s.apply_aoi_mask grid_aoi true
    { s1 with grid := grid_raster }) raster_sample

/-- The preset table of the `AOI` map class (`QualiHard` subclass): ids
1 (area of interest) and 2 (exclusion zone). -/
def aoiInit : QualiRaster :=
  (QualiRaster.init .uint8).set_table [1, 2]

/-- Model of `Raster.get_aoi` (value-interval form): build a fresh `AOI`
map carrying this raster's metadata and prj, `insert_nodata`, set the
pseudo-boolean grid `1 * (grid >= lo) * (grid <= hi)` on the AOI map,
then `mask_nodata` again.  Returns the AOI map and the source raster's
state after the call. -/
def Raster.get_aoi (r : Raster) (by_value_lo by_value_hi : ℚ) : QualiRaster × Raster :=
  let map_aoi0 := aoiInit.set_asc_metadata r.asc_metadata
  let map_aoi1 := { map_aoi0 with base := { map_aoi0.base with prj := r.prj } }
  let r1 := r.insert_nodata
  let ind : Grid := gmap (Option.map (fun v =>
    1 * b2q (decide (by_value_lo ≤ v)) * b2q (decide (v ≤ by_value_hi)))) (r1.grid.getD [])
  let map_aoi2 := { map_aoi1 with base := map_aoi1.base.set_grid ind }
  let r2 := r1.mask_nodata
  (map_aoi2, r2)

/-- Model of `QualiRaster.get_aoi` (single-id form), same structure with
the indicator `1 * (grid == id)`. -/
def QualiRaster.get_aoi (q : QualiRaster) (by_value_id : ℚ) : QualiRaster × QualiRaster :=
  let map_aoi0 := aoiInit.set_asc_metadata q.base.asc_metadata
  let map_aoi1 := { map_aoi0 with base := { map_aoi0.base with prj := q.base.prj } }
  let r1 := q.base.insert_nodata
  let ind : Grid := gmap (Option.map (fun v =>
    1 * b2q (decide (v = by_value_id)))) (r1.grid.getD [])
  let map_aoi2 := { map_aoi1 with base := map_aoi1.base.set_grid ind }
  let r2 := r1.mask_nodata
  (map_aoi2, { q with base := r2 })

/-! ### Raster collections and reduction -/

/-- A `RasterCollection` is modelled as its members listed in catalog
order (the catalog is kept deduplicated by name and sorted by name; the
catalog columns used below are re-derived from each member's
metadata). -/
abbrev RasterCollection := List Raster

/-- Model of `RasterCollection.issamegrid`: one unique value in each of
the catalog's `ncols` and `nrows` columns. -/
def issamegrid (coll : RasterCollection) : Bool :=
  ((coll.map (fun r => r.asc_metadata.ncols)).dedup.length == 1) &&
  ((coll.map (fun r => r.asc_metadata.nrows)).dedup.length == 1)

/-- Model of `np.reshape(vct, newshape=(R, C))` for a flat vector of
length `R * C`. -/
def reshape (R C : ℕ) (flat : List Cell) : Grid :=
  (List.range R).map (fun i => (flat.drop (i * C)).take C)

/-- Model of `RasterCollection.reducer`.  `red` stands for the
broadcast `reducer_function` applied to the per-cell sample vector
(`extra_arg` folded into it).  When the catalog shapes agree: stack
every member's flattened grid, iterate per cell position, optionally
drop absent samples (whereupon an empty vector yields an absent result:
`np.mean(np.nan)` is NaN), reshape to the first member's grid shape and
install on a deep copy of the first member via `set_grid`.  Returns the
`None` sentinel when `issamegrid` fails; an empty collection would raise
in the source (modelled `none`). -/
def reducer (coll : RasterCollection) (red : List Cell → Cell) (skip_nan : Bool) :
    Option Raster :=
  if issamegrid coll then
    match coll with
    | [] => none
    | first :: _ =>
      let g0 := first.grid.getD []
      let n_flat := g0.length * (g0.headD []).length
      let grd_merged := coll.map (fun r => (r.grid.getD []).flatten)
      let vct_stats := (List.range n_flat).map (fun i =>
        let v := grd_merged.map (fun row => row.getD i (some 0))
        if skip_nan then
          let vv := v.filterMap id
          if vv.isEmpty then none else red (vv.map some)
        else red v)
      let grd_stats := reshape g0.length (g0.headD []).length vct_stats
      some (first.set_grid grd_stats)
  else none

/-- Model of `np.mean` on a per-cell sample vector: NaN when the vector
is empty or contains NaN, else the arithmetic mean. -/
def npMean (l : List Cell) : Cell :=
  if l.isEmpty || l.contains none then none
  else some ((l.filterMap id).sum / (l.length : ℚ))

/-- Model of `RasterCollection.mean`: `reducer` at `np.mean`. -/
def RasterCollection.mean (coll : RasterCollection) (skip_nan : Bool) : Option Raster :=
  reducer coll npMean skip_nan

/-! ### Decidable well-formedness predicates used as hypotheses -/

/-- Internal-representation invariant of the data model: no plain cell
equals the nodata value (such cells would be absent after any
setter). -/
def gridNoNd (ndv : ℚ) (g : Grid) : Bool :=
  g.all (fun row => row.all (fun c =>
    match c with
    | none => true
    | some v => decide (v ≠ ndv)))

/-- Every plain cell value is a fixed point of the dtype cast (true of
any grid that was installed through `set_grid`, whose `astype` is
idempotent). -/
def gridCastStable (dt : Dtype) (g : Grid) : Bool :=
  g.all (fun row => row.all (fun c =>
    match c with
    | none => true
    | some v => decide (dt.cast v = v)))

/-- Catalog/grid consistency of one member (data-model invariant: array
shape equals `(nrows, ncols)` and rows are rectangular). -/
def metaConsistent (r : Raster) : Bool :=
  match r.grid with
  | none => false
  | some g =>
    (g.all (fun row => row.length == (g.headD []).length)) &&
    (r.asc_metadata.nrows == some (g.length : ℤ)) &&
    (r.asc_metadata.ncols == some ((g.headD []).length : ℤ))

/-- Shape of a member's grid as `(nrows, ncols)` =
`(len(grid), len(grid[0]))`. -/
def gridShapeOf (r : Raster) : ℕ × ℕ :=
  ((r.grid.getD []).length, ((r.grid.getD []).headD []).length)

/-! ### Concrete instances used by the scenario claims and witnesses -/

/-- The 3x3 categorical raster of the reclassification scenario:
grid `[[1,1,2],[2,3,3],[1,2,3]]`, dtype uint8, nodata 0, projected
coordinate system, cell size 30, table ids `[1,2,3]`. -/
def c4Quali : QualiRaster :=
  { base :=
    { mkRaster .uint8 with
      grid := some [[some 1, some 1, some 2], [some 2, some 3, some 3],
                    [some 1, some 2, some 3]]
      nodatavalue := some 0
      asc_metadata := { ncols := some 3, nrows := some 3, xllcorner := some 0,
                        yllcorner := some 0, cellsize := some 30, nodata_value := some 0 }
      cellsize := some 30
      prj := some ("PROJCS") }
    table := some [1, 2, 3] }

/-- First member of the mean-reduction scenario: `[[1,2],[3,4]]`. -/
def c6R1 : Raster :=
  { mkRaster .float32 with
    grid := some [[some 1, some 2], [some 3, some 4]]
    nodatavalue := some (-9999)
    asc_metadata := { ncols := some 2, nrows := some 2, xllcorner := some 0,
                      yllcorner := some 0, cellsize := some 30, nodata_value := some (-9999) }
    cellsize := some 30 }

/-- Second member of the mean-reduction scenario: `[[5,6],[7,NaN]]` (the
NaN cell is absent). -/
def c6R2 : Raster :=
  { mkRaster .float32 with
    grid := some [[some 5, some 6], [some 7, none]]
    nodatavalue := some (-9999)
    asc_metadata := { ncols := some 2, nrows := some 2, xllcorner := some 0,
                      yllcorner := some 0, cellsize := some 30, nodata_value := some (-9999) }
    cellsize := some 30 }

/-- A 1x2 float raster used to exhibit the `cut_edges` aliasing. -/
def c8Raster : Raster :=
  { mkRaster .float32 with grid := some [[some 0, some 10]] }

/-- A small well-formed float raster (one absent cell) reused by witness
instantiations. -/
def wRaster : Raster :=
  { mkRaster .float32 with
    grid := some [[some 1, none], [some 2, some 3]]
    nodatavalue := some (-9999)
    asc_metadata := { ncols := some 2, nrows := some 2, xllcorner := some 0,
                      yllcorner := some 0, cellsize := some 30, nodata_value := some (-9999) }
    cellsize := some 30 }

/-- A small well-formed categorical raster reused by witness
instantiations. -/
def wQuali : QualiRaster :=
  { base :=
    { mkRaster .uint8 with
      grid := some [[some 1, some 2], [some 2, none]]
      nodatavalue := some 0
      asc_metadata := { ncols := some 2, nrows := some 2, xllcorner := some 0,
                        yllcorner := some 0, cellsize := some 30, nodata_value := some 0 }
      cellsize := some 30
      prj := some ("PROJCS") }
    table := some [1, 2] }

/-- A 1x1 raster with consistent metadata, member of a witness
collection. -/
def wColl1 : Raster :=
  { mkRaster .float32 with
    grid := some [[some 1]]
    nodatavalue := some (-9999)
    asc_metadata := { ncols := some 1, nrows := some 1, xllcorner := some 0,
                      yllcorner := some 0, cellsize := some 30, nodata_value := some (-9999) }
    cellsize := some 30 }

/-- A second 1x1 member of the witness collection. -/
def wColl2 : Raster :=
  { mkRaster .float32 with
    grid := some [[some 2]]
    nodatavalue := some (-9999)
    asc_metadata := { ncols := some 1, nrows := some 1, xllcorner := some 0,
                      yllcorner := some 0, cellsize := some 30, nodata_value := some (-9999) }
    cellsize := some 30 }

/-- Pointwise rewrite of one `reclassify` pair on a plain value: the
conditional form that the mask-multiply computes. -/
def stepVal (v : ℚ) (p : ℚ × ℚ) : ℚ := if v = p.1 then p.2 else v

/-- A fully populated metadata dictionary (all six keys present). -/
def mkMeta (nc nr : ℤ) (xl yl cs nd : ℚ) : AscMetadata :=
  { ncols := some nc, nrows := some nr, xllcorner := some xl, yllcorner := some yl,
    cellsize := some cs, nodata_value := some nd }

/-! ### Helper lemmas -/

theorem gmap_gmap (f h : Cell → Cell) (g : Grid) :
    gmap f (gmap h g) = gmap (fun c => f (h c)) g := by
  simp [gmap, List.map_map, Function.comp_def]

theorem gmap_congr {f h : Cell → Cell} {g : Grid}
    (H : ∀ row ∈ g, ∀ c ∈ row, f c = h c) : gmap f g = gmap h g := by
  unfold gmap
  refine List.map_congr_left (fun row hrow => ?_)
  exact List.map_congr_left (fun c hc => H row hrow c hc)

theorem gmap_id_of {f : Cell → Cell} {g : Grid}
    (H : ∀ row ∈ g, ∀ c ∈ row, f c = c) : gmap f g = g := by
  unfold gmap
  have h1 : ∀ row ∈ g, row.map f = row := by
    intro row hrow
    have := List.map_congr_left (fun c hc => H row hrow c hc)
    simpa using this
  have := List.map_congr_left h1
  simpa using this

theorem gmap_length (f : Cell → Cell) (g : Grid) : (gmap f g).length = g.length := by
  simp [gmap]

theorem gmap_rowLens (f : Cell → Cell) (g : Grid) :
    (gmap f g).map List.length = g.map List.length := by
  simp [gmap, List.map_map, Function.comp_def]

theorem gridNoNd_cell {ndv : ℚ} {g : Grid} (h : gridNoNd ndv g = true)
    {row : List Cell} (hrow : row ∈ g) {v : ℚ} (hc : some v ∈ row) : v ≠ ndv := by
  unfold gridNoNd at h
  rw [List.all_eq_true] at h
  have h2 := h row hrow
  rw [List.all_eq_true] at h2
  have h3 := h2 (some v) hc
  simpa using h3

theorem gridCastStable_cell {dt : Dtype} {g : Grid} (h : gridCastStable dt g = true)
    {row : List Cell} (hrow : row ∈ g) {v : ℚ} (hc : some v ∈ row) : dt.cast v = v := by
  unfold gridCastStable at h
  rw [List.all_eq_true] at h
  have h2 := h row hrow
  rw [List.all_eq_true] at h2
  have h3 := h2 (some v) hc
  simpa using h3

theorem mask_fill_grid {ndv : ℚ} {g : Grid} (h : gridNoNd ndv g = true) :
    gmap (cellMask ndv) (gmap (cellFill ndv) g) = g := by
  rw [gmap_gmap]
  refine gmap_id_of (fun row hrow c hc => ?_)
  cases c with
  | none => simp [cellFill, cellMask]
  | some v => simp [cellFill, cellMask, gridNoNd_cell h hrow hc]

theorem set_grid_eq {r : Raster} {g : Grid} {ndv : ℚ} (hnd : r.nodatavalue = some ndv)
    (hno : gridNoNd ndv g = true) (hcast : gridCastStable r.dtype g = true) :
    r.set_grid g = { r with grid := some g } := by
  unfold Raster.set_grid Raster.mask_nodata
  have hc : gmap (fun c => c.map r.dtype.cast) g = g := by
    refine gmap_id_of (fun row hrow c hc => ?_)
    cases c with
    | none => rfl
    | some v => simp [gridCastStable_cell hcast hrow hc]
  have hm : gmap (cellMask ndv) g = g := by
    refine gmap_id_of (fun row hrow c hc => ?_)
    cases c with
    | none => rfl
    | some v => simp [cellMask, gridNoNd_cell hno hrow hc]
  simp [hnd, hc, hm]

theorem mask_nodata_fields (r : Raster) :
    r.mask_nodata.nodatavalue = r.nodatavalue ∧ r.mask_nodata.dtype = r.dtype ∧
    r.mask_nodata.backup_grid = r.backup_grid ∧ r.mask_nodata.isaoi = r.isaoi ∧
    r.mask_nodata.asc_metadata = r.asc_metadata := by
  unfold Raster.mask_nodata
  cases hnd : r.nodatavalue <;> cases hg : r.grid <;> simp [hnd, hg]

theorem set_grid_fields (r : Raster) (g : Grid) :
    (r.set_grid g).nodatavalue = r.nodatavalue ∧ (r.set_grid g).dtype = r.dtype ∧
    (r.set_grid g).backup_grid = r.backup_grid ∧ (r.set_grid g).isaoi = r.isaoi ∧
    (r.set_grid g).asc_metadata = r.asc_metadata := by
  unfold Raster.set_grid Raster.mask_nodata
  cases hnd : r.nodatavalue <;> simp [hnd]

theorem float32_cast (v : ℚ) : Dtype.float32.cast v = v := rfl

theorem uint8_cast (v : ℚ) : Dtype.uint8.cast v = ((ratTrunc v).emod 256 : ℚ) := rfl

theorem b2q_decide (P : Prop) [Decidable P] : b2q (decide P) = if P then 1 else 0 := by
  by_cases hp : P <;> simp [b2q, hp]

/-! ### Claim theorems -/

/-- C9: a categorical (QualiRaster) grid has nodata 0 after
construction, and both the `nodatavalue` attribute and the metadata
entry `NODATA_value` stay 0 after every `set_asc_metadata` call, for
every incoming metadata dictionary. -/
theorem quali_nodata_fixed_zero :
    (QualiRaster.init .uint8).base.nodatavalue = some 0 ∧
    (QualiRaster.init .uint8).base.asc_metadata.nodata_value = some 0 ∧
    ∀ (q : QualiRaster) (metadata : AscMetadata),
      (q.set_asc_metadata metadata).base.nodatavalue = some 0 ∧
      (q.set_asc_metadata metadata).base.asc_metadata.nodata_value = some 0 :=
  ⟨rfl, rfl, fun _ _ => ⟨rfl, rfl⟩⟩

/-- C8 (code behavior at the failing input): `cut_edges(upper=8,
lower=2, inplace=False)` on the grid `[[0,10]]` returns the clamped grid
`[[2,8]]` but also leaves the raster's stored grid clamped to `[[2,8]]`
(the returned array aliases `self.grid`), while the pre-call stored grid
was `[[0,10]]` — contradicting the docstring's promise that the original
grid stays unchanged. -/
theorem cut_edges_mutates_stored_grid :
    (c8Raster.cut_edges 8 2 false).1 = some [[some 2, some 8]] ∧
    ((c8Raster.cut_edges 8 2 false).2).grid = some [[some 2, some 8]] ∧
    c8Raster.grid = some [[some 0, some 10]] := by
  refine ⟨?_, ?_, rfl⟩ <;>
    (simp [c8Raster, Raster.cut_edges, mkRaster, gmap, clampCell]; norm_num)

/-- C4: reclassifying the 3x3 scenario grid with the mapping
`{1 → 10, 2 → 20}` and the new table `{10, 20, 3}` yields the grid
`[[10,10,20],[20,3,3],[10,20,3]]`, and `get_areas` then reports cell
counts 3 for each of the ids 3, 10, 20, each with area percentage
33.33. -/
theorem reclassify_scenario_3x3 :
    (c4Quali.reclassify [(1, 10), (2, 20)] [10, 20, 3]).base.grid =
      some [[some 10, some 10, some 20], [some 20, some 3, some 3],
            [some 10, some 20, some 3]] ∧
    ((c4Quali.reclassify [(1, 10), (2, 20)] [10, 20, 3]).get_areas).map
        (List.map (fun a => (a.id, a.cell_count, a.area_pct))) =
      some [(3, 3, 3333 / 100), (10, 3, 3333 / 100), (20, 3, 3333 / 100)] := by
  constructor
  · simp [c4Quali, QualiRaster.reclassify, QualiRaster.set_table, stepCell, b2q,
      mkRaster, Raster.set_grid, Raster.mask_nodata, gmap, cellMask, uint8_cast,
      ratTrunc, sortIds, List.insertionSort, List.orderedInsert]
    norm_num [ratTrunc, Int.floor_intCast]
  · simp [c4Quali, QualiRaster.reclassify, QualiRaster.set_table, QualiRaster.get_areas,
      stepCell, b2q, mkRaster, Raster.set_grid, Raster.mask_nodata, gmap, cellMask,
      uint8_cast, ratTrunc, sortIds, List.insertionSort, List.orderedInsert, countId,
      round2]
    norm_num [Int.fract]

/-- C6: the mean reduction with `skip_nan=True` of the two-member
collection `[[1,2],[3,4]]`, `[[5,6],[7,NaN]]` is `[[3,4],[5,4]]`; the
last cell averages only the single non-absent sample. -/
theorem mean_reduction_scenario :
    (RasterCollection.mean [c6R1, c6R2] true).map Raster.grid =
      some (some [[some 3, some 4], [some 5, some 4]]) := by
  simp [RasterCollection.mean, reducer, issamegrid, npMean, reshape, c6R1, c6R2,
    mkRaster, Raster.set_grid, Raster.mask_nodata, gmap, cellMask, float32_cast,
    List.range_succ]
  norm_num

theorem foldl_grid_restore {α : Type} (f : Raster → α → Raster) (g0 : Option Grid)
    (hf : ∀ s a, (f s a).grid = g0) :
    ∀ (l : List α) (s : Raster), s.grid = g0 → (l.foldl f s).grid = g0 := by
  intro l
  induction l with
  | nil => intro s hs; exact hs
  | cons a l ih => intro s _; exact ih _ (hf s a)

/-- C7: `get_zonal_stats` leaves the sample raster's cell array
elementwise equal (including absent positions) to its pre-call array,
for every categorical grid with a loaded table and every sample raster
with a nodata value set. -/
theorem zonal_stats_preserves_sample (q : QualiRaster) (t : List ℤ) (sample : Raster)
    (ndv : ℚ) (ht : q.table = some t) (hnd : sample.nodatavalue = some ndv) :
    (q.get_zonal_stats sample).grid = sample.grid := by
  unfold QualiRaster.get_zonal_stats
  refine foldl_grid_restore _ sample.grid ?_ _ sample rfl
  intro s i
  rfl

/-- C7 witness: the frame property at a concrete categorical raster and
sample raster. -/
theorem zonal_stats_preserves_sample_witness :
    wQuali.table = some [1, 2] ∧ wRaster.nodatavalue = some (-9999) ∧
    (wQuali.get_zonal_stats wRaster).grid = wRaster.grid :=
  ⟨rfl, rfl, zonal_stats_preserves_sample wQuali [1, 2] wRaster (-9999) rfl rfl⟩

theorem set_grid_grid_eq {dt : Dtype} {ndv : ℚ} {g : Grid} (hno : gridNoNd ndv g = true)
    (hcast : gridCastStable dt g = true) :
    gmap (cellMask ndv) (gmap (fun c => c.map dt.cast) g) = g := by
  have hc : gmap (fun c => c.map dt.cast) g = g := by
    refine gmap_id_of (fun row hrow c hc => ?_)
    cases c with
    | none => rfl
    | some v => simp [gridCastStable_cell hcast hrow hc]
  rw [hc]
  refine gmap_id_of (fun row hrow c hc => ?_)
  cases c with
  | none => rfl
  | some v => simp [cellMask, gridNoNd_cell hno hrow hc]

/-- C2: on a well-formed raster (nodata set, grid in internal form,
dtype-stable), `apply_aoi_mask(m, inplace=False)` followed by
`release_aoi_mask()` restores the cell array exactly (absent positions
included), clears the backup grid and lowers the AOI flag. -/
theorem aoi_apply_release_restores (r : Raster) (g m : Grid) (ndv : ℚ)
    (hg : r.grid = some g) (hnd : r.nodatavalue = some ndv)
    (hshape : m.map List.length = g.map List.length)
    (hno : gridNoNd ndv g = true) (hcast : gridCastStable r.dtype g = true) :
    ((r.apply_aoi_mask m false).release_aoi_mask).grid = some g ∧
    ((r.apply_aoi_mask m false).release_aoi_mask).backup_grid = none ∧
    ((r.apply_aoi_mask m false).release_aoi_mask).isaoi = false := by
  obtain ⟨gr, bk, ia, md, nd, cs, pj, dt⟩ := r
  simp only at hg hnd hcast
  subst hg
  subst hnd
  refine ⟨?_, ?_, ?_⟩ <;>
    simp [Raster.apply_aoi_mask, Raster.release_aoi_mask, Raster.set_grid,
      Raster.mask_nodata, set_grid_grid_eq hno hcast]

/-- C2 witness: apply then release at a concrete raster and mask. -/
theorem aoi_apply_release_restores_witness :
    wRaster.grid = some [[some 1, none], [some 2, some 3]] ∧
    wRaster.nodatavalue = some (-9999) ∧
    ([[some 1, some 0], [some 0, some 1]] : Grid).map List.length =
      ([[some 1, none], [some 2, some 3]] : Grid).map List.length ∧
    gridNoNd (-9999) [[some 1, none], [some 2, some 3]] = true ∧
    gridCastStable wRaster.dtype [[some 1, none], [some 2, some 3]] = true ∧
    (((wRaster.apply_aoi_mask [[some 1, some 0], [some 0, some 1]] false).release_aoi_mask).grid =
        some [[some 1, none], [some 2, some 3]] ∧
      ((wRaster.apply_aoi_mask [[some 1, some 0], [some 0, some 1]] false).release_aoi_mask).backup_grid =
        none ∧
      ((wRaster.apply_aoi_mask [[some 1, some 0], [some 0, some 1]] false).release_aoi_mask).isaoi =
        false) :=
  ⟨rfl, rfl, rfl, by decide, by decide,
    aoi_apply_release_restores wRaster [[some 1, none], [some 2, some 3]]
      [[some 1, some 0], [some 0, some 1]] (-9999) rfl rfl rfl (by decide) (by decide)⟩

/-- C10: `get_aoi` (the value-interval form on a base raster and the
single-id form on a categorical raster) leaves the source raster's cell
array elementwise equal to its pre-call state: `insert_nodata` fills the
absent cells and `mask_nodata` re-masks them afterward, which is the
identity on a grid satisfying the internal-representation invariant. -/
theorem get_aoi_preserves_source (r : Raster) (g : Grid) (ndv lo hi : ℚ)
    (q : QualiRaster) (qg : Grid) (qnd idv : ℚ)
    (hg : r.grid = some g) (hnd : r.nodatavalue = some ndv)
    (hno : gridNoNd ndv g = true)
    (hqg : q.base.grid = some qg) (hqnd : q.base.nodatavalue = some qnd)
    (hqno : gridNoNd qnd qg = true) :
    (r.get_aoi lo hi).2.grid = some g ∧
    ((q.get_aoi idv).2).base.grid = some qg := by
  constructor
  · obtain ⟨gr, bk, ia, md, nd, cs, pj, dt⟩ := r
    simp only at hg hnd
    subst hg
    subst hnd
    simp [Raster.get_aoi, Raster.insert_nodata, Raster.mask_nodata, mask_fill_grid hno]
  · obtain ⟨b, tb⟩ := q
    obtain ⟨gr, bk, ia, md, nd, cs, pj, dt⟩ := b
    simp only at hqg hqnd
    subst hqg
    subst hqnd
    simp [QualiRaster.get_aoi, Raster.insert_nodata, Raster.mask_nodata,
      mask_fill_grid hqno]

/-- C10 witness: both `get_aoi` forms at concrete rasters. -/
theorem get_aoi_preserves_source_witness :
    wRaster.grid = some [[some 1, none], [some 2, some 3]] ∧
    wRaster.nodatavalue = some (-9999) ∧
    gridNoNd (-9999) [[some 1, none], [some 2, some 3]] = true ∧
    wQuali.base.grid = some [[some 1, some 2], [some 2, none]] ∧
    wQuali.base.nodatavalue = some 0 ∧
    gridNoNd 0 [[some 1, some 2], [some 2, none]] = true ∧
    ((wRaster.get_aoi 1 2).2.grid = some [[some 1, none], [some 2, some 3]] ∧
      ((wQuali.get_aoi 2).2).base.grid = some [[some 1, some 2], [some 2, none]]) :=
  ⟨rfl, rfl, by decide, rfl, rfl, by decide,
    get_aoi_preserves_source wRaster [[some 1, none], [some 2, some 3]] (-9999) 1 2
      wQuali [[some 1, some 2], [some 2, none]] 0 2 rfl rfl (by decide) rfl rfl (by decide)⟩

theorem map2_congr {α β : Type} {f h : α → β} {g : List (List α)}
    (H : ∀ row ∈ g, ∀ c ∈ row, f c = h c) : g.map (List.map f) = g.map (List.map h) := by
  refine List.map_congr_left (fun row hrow => ?_)
  exact List.map_congr_left (fun c hc => H row hrow c hc)

/-- C1: exporting a well-formed raster (header complete, nodata set,
grid in internal form, dtype-stable values) to an `.asc` file and
loading that file into a fresh raster of the same dtype yields the same
six header fields and a cell array elementwise equal to the original,
with absent cells at exactly the same positions; the export also leaves
the in-memory grid unchanged (round-trip neutral). -/
theorem asc_export_load_roundtrip (r : Raster) (g : Grid) (nc nr : ℤ) (xl yl cs ndq : ℚ)
    (hg : r.grid = some g)
    (hmeta : r.asc_metadata = mkMeta nc nr xl yl cs ndq)
    (hnd : r.nodatavalue = some ndq)
    (hno : gridNoNd ndq g = true) (hcast : gridCastStable r.dtype g = true)
    (hndc : r.dtype.cast ndq = ndq) :
    ∃ f r2, r.export_asc_raster = some (f, r2) ∧ r2.grid = some g ∧
      ((mkRaster r.dtype).load_asc_raster f).asc_metadata = r.asc_metadata ∧
      ((mkRaster r.dtype).load_asc_raster f).grid = some g := by
  obtain ⟨gr, bk, ia, md, nd, cs2, pj, dt⟩ := r
  simp only at hg hmeta hnd hcast hndc ⊢
  subst hg
  subst hmeta
  subst hnd
  refine ⟨_, _, rfl, ?_, ?_, ?_⟩
  · simp [Raster.insert_nodata, Raster.mask_nodata, mask_fill_grid hno]
  · simp [Raster.load_asc_raster, Raster.set_asc_metadata, Raster.set_grid,
      Raster.mask_nodata, mkRaster, updField, mkMeta]
  · simp only [Raster.load_asc_raster, Raster.set_asc_metadata, Raster.set_grid,
      Raster.mask_nodata, Raster.insert_nodata, mkRaster, updField, mkMeta,
      gmap_gmap, List.map_map, Option.getD_some, gmap, Function.comp_def]
    refine congrArg some ?_
    refine gmap_id_of (fun row hrow c hc => ?_)
    cases c with
    | none => simp [cellFill, cellMask, hndc]
    | some v =>
      have hv := gridCastStable_cell hcast hrow hc
      have hne := gridNoNd_cell hno hrow hc
      simp [cellFill, cellMask, hv, hne]

/-- C1 witness: the round trip at a concrete raster with one absent
cell. -/
theorem asc_export_load_roundtrip_witness :
    wRaster.grid = some [[some 1, none], [some 2, some 3]] ∧
    wRaster.asc_metadata = mkMeta 2 2 0 0 30 (-9999) ∧
    wRaster.nodatavalue = some (-9999) ∧
    gridNoNd (-9999) [[some 1, none], [some 2, some 3]] = true ∧
    gridCastStable wRaster.dtype [[some 1, none], [some 2, some 3]] = true ∧
    wRaster.dtype.cast (-9999) = -9999 ∧
    (∃ f r2, wRaster.export_asc_raster = some (f, r2) ∧
      r2.grid = some [[some 1, none], [some 2, some 3]] ∧
      ((mkRaster wRaster.dtype).load_asc_raster f).asc_metadata = wRaster.asc_metadata ∧
      ((mkRaster wRaster.dtype).load_asc_raster f).grid =
        some [[some 1, none], [some 2, some 3]]) :=
  ⟨rfl, rfl, rfl, by decide, by decide, rfl,
    asc_export_load_roundtrip wRaster [[some 1, none], [some 2, some 3]] 2 2 0 0 30 (-9999)
      rfl rfl rfl (by decide) (by decide) rfl⟩

theorem stepCell_eq (c : Cell) (p : ℚ × ℚ) : stepCell c p = c.map (fun v => stepVal v p) := by
  cases c with
  | none => rfl
  | some v =>
    by_cases h : v = p.1 <;> simp [stepCell, stepVal, b2q, h]

theorem foldl_stepCell_map (ps : List (ℚ × ℚ)) (c : Cell) :
    ps.foldl stepCell c = c.map (fun v => ps.foldl stepVal v) := by
  induction ps generalizing c with
  | nil => cases c <;> rfl
  | cons p ps ih =>
    rw [List.foldl_cons, ih, stepCell_eq]
    cases c <;> rfl

theorem foldl_stepVal_perm {ps qs : List (ℚ × ℚ)} (hperm : ps.Perm qs) :
    (ps.map Prod.fst).Nodup → (∀ p ∈ ps, ∀ p2 ∈ ps, p.2 ≠ p2.1) →
    ∀ v, ps.foldl stepVal v = qs.foldl stepVal v := by
  induction hperm with
  | nil => intro _ _ v; rfl
  | cons x h ih =>
    intro hnodup hdisj v
    rw [List.foldl_cons, List.foldl_cons]
    refine ih ?_ ?_ (stepVal v x)
    · rw [List.map_cons, List.nodup_cons] at hnodup
      exact hnodup.2
    · intro p hp p2 hp2
      exact hdisj p (List.mem_cons_of_mem _ hp) p2 (List.mem_cons_of_mem _ hp2)
  | swap x y l =>
    intro hnodup hdisj v
    have hxy : y.1 ≠ x.1 := by
      rw [List.map_cons, List.map_cons, List.nodup_cons] at hnodup
      exact fun h => hnodup.1 (h ▸ List.mem_cons_self _ _)
    have h1 : y.2 ≠ x.1 := hdisj y (by simp) x (by simp)
    have h2 : x.2 ≠ y.1 := hdisj x (by simp) y (by simp)
    rw [List.foldl_cons, List.foldl_cons, List.foldl_cons, List.foldl_cons]
    have hcomm : stepVal (stepVal v y) x = stepVal (stepVal v x) y := by
      by_cases hvy : v = y.1 <;> by_cases hvx : v = x.1
      · exact absurd (hvy ▸ hvx.symm ▸ rfl) hxy
      · subst hvy
        simp [stepVal, h1, hvx]
      · subst hvx
        simp [stepVal, h2, hvy, Ne.symm hxy]
      · simp [stepVal, hvy, hvx]
    rw [hcomm]
  | trans h1 h2 ih1 ih2 =>
    intro hnodup hdisj v
    rw [ih1 hnodup hdisj v]
    refine ih2 ?_ ?_ v
    · exact ((h1.map Prod.fst).nodup_iff).mp hnodup
    · intro p hp p2 hp2
      exact hdisj p (h1.mem_iff.mpr hp) p2 (h1.mem_iff.mpr hp2)

theorem foldl_gmap_step (l : List (ℚ × ℚ)) (g : Grid) :
    l.foldl (fun gr p => gmap (fun c => stepCell c p) gr) g =
      gmap (fun c => l.foldl stepCell c) g := by
  induction l generalizing g with
  | nil => exact (gmap_id_of (fun _ _ _ _ => rfl)).symm
  | cons p l ih =>
    rw [List.foldl_cons, ih, gmap_gmap]
    rfl

/-- C5: for any categorical grid and any id mapping whose old ids are
pairwise distinct and whose new ids avoid every old id, `reclassify`
applied to the mapping pairs in any order produces the same resulting
state: each cell's mask-multiply fold commutes under permutation of the
pairs. -/
theorem reclassify_perm_invariant (q : QualiRaster) (ps qs : List (ℚ × ℚ))
    (tbl : List ℤ) (hperm : ps.Perm qs)
    (hnodup : (ps.map Prod.fst).Nodup)
    (hdisj : ∀ p ∈ ps, ∀ p2 ∈ ps, p.2 ≠ p2.1) :
    q.reclassify ps tbl = q.reclassify qs tbl := by
  unfold QualiRaster.reclassify
  cases hg : q.base.grid with
  | none => rfl
  | some g =>
    have hgrids : ps.foldl (fun gr p => gmap (fun c => stepCell c p) gr) g =
        qs.foldl (fun gr p => gmap (fun c => stepCell c p) gr) g := by
      rw [foldl_gmap_step, foldl_gmap_step]
      refine gmap_congr (fun row hrow c hc => ?_)
      rw [foldl_stepCell_map, foldl_stepCell_map]
      cases c with
      | none => rfl
      | some v =>
        exact congrArg some (foldl_stepVal_perm hperm hnodup hdisj v)
    exact congrArg
      (fun gr => (({ q with base := q.base.set_grid gr } : QualiRaster).set_table tbl))
      hgrids

/-- C5 witness: the two orders of the mapping `{1 → 10, 2 → 20}` agree
on a concrete categorical raster. -/
theorem reclassify_perm_invariant_witness :
    [((1 : ℚ), (10 : ℚ)), (2, 20)].Perm [(2, 20), (1, 10)] ∧
    (([((1 : ℚ), (10 : ℚ)), (2, 20)].map Prod.fst).Nodup) ∧
    (∀ p ∈ [((1 : ℚ), (10 : ℚ)), (2, 20)], ∀ p2 ∈ [((1 : ℚ), (10 : ℚ)), (2, 20)],
      p.2 ≠ p2.1) ∧
    wQuali.reclassify [(1, 10), (2, 20)] [10, 20] =
      wQuali.reclassify [(2, 20), (1, 10)] [10, 20] :=
  ⟨by decide, by decide, by decide,
    reclassify_perm_invariant wQuali [(1, 10), (2, 20)] [(2, 20), (1, 10)] [10, 20]
      (by decide) (by decide) (by decide)⟩

theorem dedup_length_one_iff {α : Type} [DecidableEq α] {l : List α} (h : l ≠ []) :
    l.dedup.length = 1 ↔ ∀ x ∈ l, ∀ y ∈ l, x = y := by
  constructor
  · intro h1 x hx y hy
    obtain ⟨a, ha⟩ := List.length_eq_one.mp h1
    have hx2 : x ∈ l.dedup := List.mem_dedup.mpr hx
    have hy2 : y ∈ l.dedup := List.mem_dedup.mpr hy
    rw [ha, List.mem_singleton] at hx2 hy2
    rw [hx2, hy2]
  · intro hall
    obtain ⟨a, l2, rfl⟩ := List.exists_cons_of_ne_nil h
    have hmem : ∀ x ∈ (a :: l2).dedup, x = a :=
      fun x hx => hall x (List.mem_dedup.mp hx) a (List.mem_cons_self a l2)
    have hnd : (a :: l2).dedup.Nodup := List.nodup_dedup _
    have hne2 : (a :: l2).dedup ≠ [] := by
      intro hcon
      have hin : a ∈ (a :: l2).dedup := List.mem_dedup.mpr (List.mem_cons_self a l2)
      rw [hcon] at hin
      exact absurd hin (List.not_mem_nil a)
    obtain ⟨b, t, hbt⟩ := List.exists_cons_of_ne_nil hne2
    cases t with
    | nil => rw [hbt]; rfl
    | cons c t2 =>
      exfalso
      rw [hbt] at hnd hmem
      have hb : b = a := hmem b (List.mem_cons_self _ _)
      have hc : c = a := hmem c (by simp)
      rw [List.nodup_cons] at hnd
      exact hnd.1 (by simp [hb, hc])

theorem metaConsistent_spec {r : Raster} (h : metaConsistent r = true) :
    ∃ g, r.grid = some g ∧
      r.asc_metadata.nrows = some ((g.length : ℕ) : ℤ) ∧
      r.asc_metadata.ncols = some (((g.headD []).length : ℕ) : ℤ) := by
  unfold metaConsistent at h
  cases hg : r.grid with
  | none => rw [hg] at h; exact absurd h (by simp)
  | some g =>
    rw [hg] at h
    simp only [Bool.and_eq_true, beq_iff_eq] at h
    exact ⟨g, rfl, h.1.2, h.2⟩

theorem meta_eq_of_consistent {r : Raster} (h : metaConsistent r = true) :
    r.asc_metadata.ncols = some (((gridShapeOf r).2 : ℕ) : ℤ) ∧
    r.asc_metadata.nrows = some (((gridShapeOf r).1 : ℕ) : ℤ) := by
  obtain ⟨g, hg, hrows, hcols⟩ := metaConsistent_spec h
  unfold gridShapeOf
  rw [hg]
  exact ⟨hcols, hrows⟩

theorem reshape_length (R C : ℕ) (flat : List Cell) : (reshape R C flat).length = R := by
  simp [reshape]

theorem reshape_row_length {R C : ℕ} {flat : List Cell} (hlen : flat.length = R * C) :
    ∀ row ∈ reshape R C flat, row.length = C := by
  intro row hrow
  unfold reshape at hrow
  obtain ⟨i, hi, rfl⟩ := List.mem_map.mp hrow
  rw [List.mem_range] at hi
  rw [List.length_take, List.length_drop, hlen]
  have hmul : (i + 1) * C ≤ R * C := Nat.mul_le_mul_right C hi
  rw [Nat.succ_mul] at hmul
  omega

theorem set_grid_shape (r : Raster) (g : Grid) :
    ∃ gr, (r.set_grid g).grid = some gr ∧ gr.length = g.length ∧
      ∀ row ∈ gr, ∃ row0 ∈ g, row.length = row0.length := by
  unfold Raster.set_grid Raster.mask_nodata
  cases hnd : r.nodatavalue with
  | none =>
    refine ⟨_, rfl, by simp [gmap], ?_⟩
    intro row hrow
    unfold gmap at hrow
    obtain ⟨row0, hrow0, rfl⟩ := List.mem_map.mp hrow
    exact ⟨row0, hrow0, by simp⟩
  | some ndv =>
    refine ⟨_, rfl, by simp [gmap], ?_⟩
    intro row hrow
    unfold gmap at hrow
    obtain ⟨row1, hrow1, rfl⟩ := List.mem_map.mp hrow
    obtain ⟨row0, hrow0, rfl⟩ := List.mem_map.mp hrow1
    exact ⟨row0, hrow0, by simp⟩

theorem issamegrid_true_iff (coll : RasterCollection) (hne : coll ≠ []) :
    issamegrid coll = true ↔
      ((∀ r ∈ coll, ∀ s ∈ coll, r.asc_metadata.ncols = s.asc_metadata.ncols) ∧
       (∀ r ∈ coll, ∀ s ∈ coll, r.asc_metadata.nrows = s.asc_metadata.nrows)) := by
  have hmapne : ∀ (f : Raster → Option ℤ), coll.map f ≠ [] := by
    intro f hcon
    exact hne (List.map_eq_nil_iff.mp hcon)
  unfold issamegrid
  rw [Bool.and_eq_true, beq_iff_eq, beq_iff_eq]
  rw [dedup_length_one_iff (hmapne _), dedup_length_one_iff (hmapne _)]
  constructor
  · intro ⟨h1, h2⟩
    constructor
    · intro r hr s hs
      exact h1 _ (List.mem_map_of_mem _ hr) _ (List.mem_map_of_mem _ hs)
    · intro r hr s hs
      exact h2 _ (List.mem_map_of_mem _ hr) _ (List.mem_map_of_mem _ hs)
  · intro ⟨h1, h2⟩
    constructor
    · intro x hx y hy
      obtain ⟨r, hr, rfl⟩ := List.mem_map.mp hx
      obtain ⟨s, hs, rfl⟩ := List.mem_map.mp hy
      exact h1 r hr s hs
    · intro x hx y hy
      obtain ⟨r, hr, rfl⟩ := List.mem_map.mp hx
      obtain ⟨s, hs, rfl⟩ := List.mem_map.mp hy
      exact h2 r hr s hs

theorem reducer_some (first : Raster) (rest : RasterCollection) (red : List Cell → Cell)
    (skip_nan : Bool) (hsg : issamegrid (first :: rest) = true) :
    ∃ gstat, reducer (first :: rest) red skip_nan = some (first.set_grid gstat) ∧
      gstat.length = (first.grid.getD []).length ∧
      ∀ row ∈ gstat, row.length = ((first.grid.getD []).headD []).length := by
  refine ⟨reshape (first.grid.getD []).length ((first.grid.getD []).headD []).length
      ((List.range ((first.grid.getD []).length * ((first.grid.getD []).headD []).length)).map
        (fun i =>
          let v := ((first :: rest).map (fun r => (r.grid.getD []).flatten)).map
            (fun row => row.getD i (some 0))
          if skip_nan then
            let vv := v.filterMap id
            if vv.isEmpty then none else red (vv.map some)
          else red v)), ?_, ?_, ?_⟩
  · unfold reducer
    rw [hsg]
    rfl
  · exact reshape_length _ _ _
  · refine reshape_row_length ?_
    simp

/-- C3: for a non-empty collection with catalog-consistent members,
`reducer` returns a raster whose grid shape equals the shared
`(nrows, ncols)` whenever every member has the same shape, and returns
the `None` sentinel (without raising) whenever the shapes differ. -/
theorem reducer_shape_and_sentinel (coll : RasterCollection) (red : List Cell → Cell)
    (skip_nan : Bool) (hne : coll ≠ [])
    (hcons : ∀ r ∈ coll, metaConsistent r = true) :
    ((∀ r ∈ coll, ∀ s ∈ coll, gridShapeOf r = gridShapeOf s) →
      ∃ out gr, reducer coll red skip_nan = some out ∧ out.grid = some gr ∧
        gr.length = (gridShapeOf (coll.headD default)).1 ∧
        ∀ row ∈ gr, row.length = (gridShapeOf (coll.headD default)).2) ∧
    ((∃ r ∈ coll, ∃ s ∈ coll, gridShapeOf r ≠ gridShapeOf s) →
      reducer coll red skip_nan = none) := by
  obtain ⟨first, rest, rfl⟩ := List.exists_cons_of_ne_nil hne
  constructor
  · intro hsame
    have hsg : issamegrid (first :: rest) = true := by
      rw [issamegrid_true_iff _ hne]
      constructor
      · intro r hr s hs
        rw [(meta_eq_of_consistent (hcons r hr)).1, (meta_eq_of_consistent (hcons s hs)).1,
          hsame r hr s hs]
      · intro r hr s hs
        rw [(meta_eq_of_consistent (hcons r hr)).2, (meta_eq_of_consistent (hcons s hs)).2,
          hsame r hr s hs]
    obtain ⟨gstat, hred, hlen, hrowlen⟩ := reducer_some first rest red skip_nan hsg
    obtain ⟨gr, hgr, hglen, hgrows⟩ := set_grid_shape first gstat
    refine ⟨_, gr, hred, hgr, ?_, ?_⟩
    · rw [hglen, hlen]
      rfl
    · intro row hrow
      obtain ⟨row0, hrow0, hroweq⟩ := hgrows row hrow
      rw [hroweq, hrowlen row0 hrow0]
      rfl
  · intro ⟨r, hr, s, hs, hdiff⟩
    have hsg : issamegrid (first :: rest) = false := by
      rw [← Bool.not_eq_true, issamegrid_true_iff _ hne]
      intro ⟨h1, h2⟩
      apply hdiff
      have hc_r := meta_eq_of_consistent (hcons r hr)
      have hc_s := meta_eq_of_consistent (hcons s hs)
      have hcols := h1 r hr s hs
      have hrowsm := h2 r hr s hs
      rw [hc_r.1, hc_s.1] at hcols
      rw [hc_r.2, hc_s.2] at hrowsm
      have h3 : (gridShapeOf r).2 = (gridShapeOf s).2 := by
        have h5 := Option.some.inj hcols
        exact_mod_cast h5
      have h4 : (gridShapeOf r).1 = (gridShapeOf s).1 := by
        have h5 := Option.some.inj hrowsm
        exact_mod_cast h5
      exact Prod.ext h4 h3
    unfold reducer
    rw [hsg]
    rfl

/-- C3 witness: the reducer shape conjunction at a concrete two-member
collection of 1x1 rasters. -/
theorem reducer_shape_and_sentinel_witness :
    (([wColl1, wColl2] : RasterCollection) ≠ [] ∧
      (∀ r ∈ ([wColl1, wColl2] : RasterCollection), metaConsistent r = true)) ∧
    (((∀ r ∈ ([wColl1, wColl2] : RasterCollection),
        ∀ s ∈ ([wColl1, wColl2] : RasterCollection), gridShapeOf r = gridShapeOf s) →
      ∃ out gr, reducer [wColl1, wColl2] npMean true = some out ∧ out.grid = some gr ∧
        gr.length = (gridShapeOf (([wColl1, wColl2] : RasterCollection).headD default)).1 ∧
        ∀ row ∈ gr,
          row.length = (gridShapeOf (([wColl1, wColl2] : RasterCollection).headD default)).2) ∧
    ((∃ r ∈ ([wColl1, wColl2] : RasterCollection),
        ∃ s ∈ ([wColl1, wColl2] : RasterCollection), gridShapeOf r ≠ gridShapeOf s) →
      reducer [wColl1, wColl2] npMean true = none)) :=
  ⟨⟨by decide, by decide⟩,
    reducer_shape_and_sentinel [wColl1, wColl2] npMean true (by decide) (by decide)⟩
